import Mathlib

/-!
# Verification of the maintenance-log PDF composition pipeline

Shallow embedding of `src/pdf_server_render.py` (the `generate_pdf` request
handler and its helper `download_image_from_url`), together with faithful
models of the two external library behaviours that the handler relies on:

* Python `base64.b64decode` in its default lenient mode (characters outside
  the base-64 alphabet are discarded before the padding check; `=` is
  accepted only as trailing padding; a post-discard length that is not a
  multiple of four is a decode error);
* `requests.get(...).raise_for_status()`, which raises exactly for status
  codes in the 400..599 range.

The handler builds an ordered list of reportlab flowables; the embedding
represents each appended flowable as a `Block` carrying the data that the
source code puts into it (visual styling constants are not modelled).
ReportLab constructors are modelled as non-raising, except for the `Image`
constructor, whose acceptance of a decoded byte payload is an explicit
oracle parameter `imgOk` (its failure is caught by the per-photo and
per-logo `try` blocks in the source).  The network outcome of the single
`requests.get` call is an explicit parameter of type `Option HttpResponse`
(`none` models a raised exception: connection failure, timeout, malformed
URL).  Python dictionary access `log_data['k']` on a missing key raises
`KeyError('k')`, whose `str` rendering is the quoted key; the embedding
returns `Except.error` with that message, mirroring the top-level
`except Exception` handler that answers with `jsonify({'error': str(e)}), 500`.
-/

set_option maxHeartbeats 1000000

/-- Value of a character in the standard base-64 alphabet, if it has one. -/
def b64Val (c : Char) : Option Nat :=
  if 'A' ≤ c ∧ c ≤ 'Z' then some (c.toNat - 65)
  else if 'a' ≤ c ∧ c ≤ 'z' then some (c.toNat - 97 + 26)
  else if '0' ≤ c ∧ c ≤ '9' then some (c.toNat - 48 + 52)
  else if c = '+' then some 62
  else if c = '/' then some 63
  else none

/-- Decode a run of base-64 quads (input already filtered to alphabet
characters and `=`).  Models the quad processing of Python
`base64.b64decode`: a leftover group of 1-3 characters is an error
("Incorrect padding"), `=` is accepted only as the final one or two
characters of the final quad. -/
def decodeQuads : List Char → Option (List Nat)
  | [] => some []
  | a :: b :: c :: d :: rest =>
    match b64Val a, b64Val b with
    | some va, some vb =>
      if c = '=' then
        if d = '=' ∧ rest = [] then some [va * 4 + vb / 16]
        else none
      else
        match b64Val c with
        | some vc =>
          if d = '=' then
            if rest = [] then some [va * 4 + vb / 16, vb % 16 * 16 + vc / 4]
            else none
          else
            match b64Val d with
            | some vd =>
              match decodeQuads rest with
              | some bs =>
                some ((va * 4 + vb / 16) :: (vb % 16 * 16 + vc / 4) :: (vc % 4 * 64 + vd) :: bs)
              | none => none
            | none => none
        | none => none
    | _, _ => none
  | _ => none

/-- Model of Python `base64.b64decode(s)` (default lenient mode):
characters that are neither in the base-64 alphabet nor `=` are discarded,
then the quads are decoded. -/
def b64decode (s : String) : Option (List Nat) :=
  decodeQuads (s.data.filter (fun c => (b64Val c).isSome || (c == '=')))

/-- Model of Python `str.split(',')`: split a character list at every comma
(separators are dropped, empty fields are kept). -/
def splitOnComma : List Char → List (List Char)
  | [] => [[]]
  | c :: rest =>
    if c = ',' then [] :: splitOnComma rest
    else
      match splitOnComma rest with
      | [] => [[c]]
      | g :: gs => (c :: g) :: gs

/-- The per-photo decode step of `generate_pdf` (source lines 382-385):
`if ',' in img_data: img_data = img_data.split(',')[1]` followed by
`base64.b64decode(img_data)`.  Note that `split(',')[1]` is the text
strictly between the first and the second comma. -/
def decode_image (s : String) : Option (List Nat) :=
  if s.data.contains ',' then
    b64decode (String.mk ((splitOnComma s.data).getD 1 []))
  else b64decode s

/-- Modelled from the spec: the Image Decoder contract as the spec words it
("if the string contains a comma, discard everything up to and including
the first comma ...; base64-decode the remainder").  Declared only to be
compared with `decode_image`, the decoder translated from the source. -/
def decode_image_spec (s : String) : Option (List Nat) :=
  if s.data.contains ',' then
    b64decode (String.mk ((s.data.dropWhile (fun c => c != ',')).drop 1))
  else b64decode s

/-- Model of `description.replace('\n', '<br/>')` (source line 351); the
pattern is the single newline character, so the replacement is
character-by-character. -/
def replaceNewlines : List Char → List Char
  | [] => []
  | c :: rest =>
    if c = '\n' then '<' :: 'b' :: 'r' :: '/' :: '>' :: replaceNewlines rest
    else c :: replaceNewlines rest

/-- The description text placed into the detailed-description content box. -/
def description_to_html (s : String) : String :=
  String.mk (replaceNewlines s.data)

/-- Model of the Python substring test `pat in s`. -/
def strContainsSub (s pat : String) : Bool :=
  (List.range (s.data.length + 1)).any (fun k => pat.data.isPrefixOf (s.data.drop k))

/-- An HTTP response as seen by `download_image_from_url`: the final status
code and the body bytes (`requests.get` either yields such a response or
raises, the raising outcome being `none` at the call site). -/
structure HttpResponse where
  status : Nat
  body : List Nat
deriving DecidableEq

/-- The timeout passed to `requests.get` in `download_image_from_url`
(source line 114: `timeout=10`), in seconds. -/
def request_timeout_seconds : Nat := 10

/-- The headers passed to `requests.get` in `download_image_from_url`
(source lines 109-113). -/
def request_headers : List (String × String) :=
  [("User-Agent", "Mozilla/5.0 (Windows NT 10.0; Win64; x64) AppleWebKit/537.36 (KHTML, like Gecko) Chrome/91.0.4472.124 Safari/537.36"),
   ("Accept", "image/webp,image/apng,image/*,*/*;q=0.8"),
   ("Accept-Language", "en-US,en;q=0.9")]

/-- `download_image_from_url` (source lines 105-119): wraps the whole body
in `try/except` returning `None` on any exception.  `net = none` models a
raised network exception (connection error, timeout, malformed URL);
otherwise `response.raise_for_status()` raises exactly for status codes
400-599, and on no raise the full body is returned as a byte stream. -/
def download_image_from_url (net : Option HttpResponse) : Option (List Nat) :=
  match net with
  | none => none
  | some resp =>
    if 400 ≤ resp.status ∧ resp.status < 600 then none
    else some resp.body

/-- The category color choice (source line 205):
`secondary_blue if log_data['category'] == 'it' else colors.HexColor('#cc6600')`,
recorded as the hex string of the chosen color. -/
def category_color (c : String) : String :=
  if c = "it" then "#0066cc" else "#cc6600"

/-- The category label choice (source line 206):
`'IT MAINTENANCE REQUEST' if log_data['category'] == 'it' else 'BUILDING MAINTENANCE REQUEST'`. -/
def category_text (c : String) : String :=
  if c = "it" then "IT MAINTENANCE REQUEST" else "BUILDING MAINTENANCE REQUEST"

/-- One flowable appended to the `elements` list of `generate_pdf`, carrying
the record data that the source code puts into it (purely visual styling is
not modelled).
* `headerTable body`: the logo + company-info table (lines 174-181).
* `spacer`: any `Spacer(...)`.
* `titleTable text`: the title banner (lines 189-201).
* `refTable idText colorHex label`: the document-reference box
  (lines 208-237), carrying the rendered `#<id>` text, the category color
  and the category label.
* `infoGrid date time author status`: the report-information grid
  (lines 243-269).
* `sectionHeader caption` / `sectionContent text`: the colored section
  header bars and their bordered content boxes (issue summary, location,
  detailed description, photographic documentation).
* `imgTable pos caption`: one photo + caption pair (lines 389-406), `pos`
  the 1-based original position, `caption` the caption text.
* `pageBreak`: a `PageBreak()` (line 410).
* `footerTable docId`: the footer box (lines 420-439). -/
inductive Block where
  | headerTable : List Nat → Block
  | spacer : Block
  | titleTable : String → Block
  | refTable : String → String → String → Block
  | infoGrid : String → String → String → String → Block
  | sectionHeader : String → Block
  | sectionContent : String → Block
  | imgTable : Nat → String → Block
  | pageBreak : Block
  | footerTable : String → Block
deriving DecidableEq

/-- The JSON payload of one render request.  Every field is optional at the
JSON level; `generate_pdf` reads `id`, `title`, `category`, `location`,
`description`, `date` and `time` with `log_data['k']` (raising `KeyError`
when absent) and `author`, `images`, `logoUrl` with `.get` (tolerating
absence). -/
structure LogData where
  id : Option String
  title : Option String
  category : Option String
  location : Option String
  description : Option String
  date : Option String
  time : Option String
  author : Option String
  images : Option (List String)
  logoUrl : Option String

/-- The successful outcome of `generate_pdf`: the ordered flowable list
handed to `doc.build` and the download filename of the response. -/
structure PdfResult where
  elements : List Block
  filename : String
deriving DecidableEq

/-- The caption text of one gallery photo (source line 391):
`Photo {i+1} of {len(log_data["images"])}` with `i+1` already applied. -/
def photoCaption (pos n : Nat) : String :=
  "Photo " ++ toString pos ++ " of " ++ toString n

/-- Whether the per-photo `try` body succeeds for entry `s`: the base-64
decode must succeed and the `Image` constructor oracle must accept the
resulting bytes. -/
def successEntry (imgOk : List Nat → Bool) (s : String) : Bool :=
  match decode_image s with
  | some bs => imgOk bs
  | none => false

/-- The photo loop of `generate_pdf` (source lines 380-413): for each entry
(at original 0-based index `i`, with `n` the length of the original images
list) the `try` body decodes the entry, builds the image + caption table,
appends it and a spacer, and appends a `PageBreak` when
`(i + 1) % 2 == 0 and i < len(images) - 1`; any exception skips the rest of
that iteration. -/
def galleryEntry (imgOk : List Nat → Bool) (n i : Nat) (s : String) : List Block :=
  match decode_image s with
  | none => []
  | some bs =>
    if imgOk bs then
      Block.imgTable (i + 1) (photoCaption (i + 1) n) :: Block.spacer ::
        (if (i + 1) % 2 = 0 ∧ i < n - 1 then [Block.pageBreak] else [])
    else []

/-- Iteration of the photo loop over the remaining entries, `i` the current
original 0-based index. -/
def galleryLoop (imgOk : List Nat → Bool) (n : Nat) : Nat → List String → List Block
  | _, [] => []
  | i, s :: rest => galleryEntry imgOk n i s ++ galleryLoop imgOk n (i + 1) rest

/-- The photographic-documentation section (source lines 364-413): present
only when `log_data.get('images')` is truthy (a non-empty list). -/
def galleryBlocks (imgOk : List Nat → Bool) (images : Option (List String)) : List Block :=
  match images with
  | none => []
  | some imgs =>
    if 0 < imgs.length then
      Block.spacer :: Block.sectionHeader "PHOTOGRAPHIC DOCUMENTATION" :: Block.spacer ::
        galleryLoop imgOk imgs.length 0 imgs
    else []

/-- The header section (source lines 153-184): the logo table is appended
only when `logo_url` is truthy, does not contain `'YOUR_LOGO'`, the
download returns a buffer, and the `Image` constructor accepts it; the
inner `try` swallows any failure. -/
def headerBlocks (logoUrl : Option String) (net : Option HttpResponse)
    (imgOk : List Nat → Bool) : List Block :=
  match logoUrl with
  | none => []
  | some u =>
    if u ≠ "" ∧ strContainsSub u "YOUR_LOGO" = false then
      match download_image_from_url net with
      | none => []
      | some body => if imgOk body then [Block.headerTable body] else []
    else []

/-- `str(KeyError('k'))` in Python is the quoted key; this is the message
carried by the 500 response when `log_data['k']` is missing. -/
def keyErr (k : String) : String := "\x27" ++ k ++ "\x27"

/-- The `generate_pdf` request handler (source lines 121-462), modelled as
the ordered flowable list it hands to `doc.build` plus the response
filename.  Required-field reads appear in source evaluation order
(`category` line 205, `id` line 211, `date` line 246, `time` line 248,
`title` line 303, `location` line 327, `description` line 351); the first
missing one raises `KeyError`, caught by the top-level handler which
answers `jsonify({'error': str(e)}), 500`, modelled as `Except.error` with
the `str(KeyError(...))` message.  `author` is read with
`.get('author', 'Unknown')` (line 252).  The render-time generation
timestamp (a clock read) is not modelled; the footer block carries the
record id that the source interpolates next to it. -/
def generate_pdf (r : LogData) (net : Option HttpResponse)
    (imgOk : List Nat → Bool) : Except String PdfResult :=
  let header := headerBlocks r.logoUrl net imgOk
  match r.category with
  | none => Except.error (keyErr "category")
  | some category =>
    match r.id with
    | none => Except.error (keyErr "id")
    | some id =>
      match r.date with
      | none => Except.error (keyErr "date")
      | some date =>
        match r.time with
        | none => Except.error (keyErr "time")
        | some time =>
          let author := r.author.getD "Unknown"
          match r.title with
          | none => Except.error (keyErr "title")
          | some title =>
            match r.location with
            | none => Except.error (keyErr "location")
            | some location =>
              match r.description with
              | none => Except.error (keyErr "description")
              | some description =>
                Except.ok (PdfResult.mk
                  (header ++
                    [Block.spacer,
                     Block.titleTable "MAINTENANCE SERVICE REPORT", Block.spacer,
                     Block.refTable ("#" ++ id) (category_color category) (category_text category),
                     Block.spacer,
                     Block.infoGrid date time author "SUBMITTED", Block.spacer,
                     Block.sectionHeader "ISSUE SUMMARY",
                     Block.sectionContent ("<b>" ++ title ++ "</b>"), Block.spacer,
                     Block.sectionHeader "LOCATION / EQUIPMENT IDENTIFICATION",
                     Block.sectionContent location, Block.spacer,
                     Block.sectionHeader "DETAILED DESCRIPTION",
                     Block.sectionContent (description_to_html description)] ++
                    galleryBlocks imgOk r.images ++
                    [Block.spacer, Block.footerTable id])
                  ("SDA-MaintenanceReport-" ++ id ++ ".pdf"))

/-- Number of `PageBreak` flowables in an element list. -/
def countPageBreaks : List Block → Nat
  | [] => 0
  | b :: rest => (if b = Block.pageBreak then 1 else 0) + countPageBreaks rest

/-- The element list of a render outcome (empty on the error path: the 500
response carries no flowables). -/
def elementsOf : Except String PdfResult → List Block
  | Except.ok d => d.elements
  | Except.error _ => []

/-- Number of successfully placed photos of an images list. -/
def numPlaced (imgOk : List Nat → Bool) (imgs : List String) : Nat :=
  (imgs.filter (successEntry imgOk)).length

/-- All fields that `generate_pdf` reads with raising dictionary access are
present. -/
def RequiredPresent (r : LogData) : Prop :=
  r.category.isSome = true ∧ r.id.isSome = true ∧ r.date.isSome = true ∧
    r.time.isSome = true ∧ r.title.isSome = true ∧ r.location.isSome = true ∧
    r.description.isSome = true

/-- The first required field missing in the source's evaluation order, hence
the key whose `KeyError` the top-level handler reports. -/
def firstMissing (r : LogData) : Option String :=
  if r.category.isNone then some "category"
  else if r.id.isNone then some "id"
  else if r.date.isNone then some "date"
  else if r.time.isNone then some "time"
  else if r.title.isNone then some "title"
  else if r.location.isNone then some "location"
  else if r.description.isNone then some "description"
  else none

example : b64decode "QUJD" = some [65, 66, 67] := by decide
example : b64decode "QUJDREVG" = some [65, 66, 67, 68, 69, 70] := by decide
example : b64decode "A" = none := by decide
example : b64decode "QQ==" = some [65] := by decide
example : b64decode "QUI=" = some [65, 66] := by decide
example : decode_image "meta,QUJD,REVG" = some [65, 66, 67] := by decide
example : decode_image_spec "meta,QUJD,REVG" = some [65, 66, 67, 68, 69, 70] := by decide
example : strContainsSub "https://x/YOUR_LOGO.png" "YOUR_LOGO" = true := by decide
example : strContainsSub "https://x/logo.png" "YOUR_LOGO" = false := by decide
example : description_to_html "line1\nline2" = "line1<br/>line2" := by decide

/-! ## Helper lemmas -/

theorem countPageBreaks_append (l1 l2 : List Block) :
    countPageBreaks (l1 ++ l2) = countPageBreaks l1 + countPageBreaks l2 := by
  induction l1 with
  | nil => simp [countPageBreaks]
  | cons b rest ih => simp [countPageBreaks, ih]; omega

theorem countPageBreaks_galleryEntry (imgOk : List Nat → Bool) (n i : Nat) (s : String) :
    countPageBreaks (galleryEntry imgOk n i s)
      = if successEntry imgOk s && decide ((i + 1) % 2 = 0 ∧ i < n - 1) then 1 else 0 := by
  unfold galleryEntry successEntry
  cases decode_image s with
  | none => simp [countPageBreaks]
  | some bs =>
    cases h : imgOk bs
    · simp [h, countPageBreaks]
    · by_cases hc : (i + 1) % 2 = 0 ∧ i < n - 1
      · simp [h, hc, countPageBreaks]
      · simp [h, hc, countPageBreaks]

theorem galleryLoop_count (imgOk : List Nat → Bool) (n : Nat) :
    ∀ (l : List String) (i : Nat),
      countPageBreaks (galleryLoop imgOk n i l)
        = ((List.enumFrom i l).filter
            (fun e => successEntry imgOk e.2 && decide ((e.1 + 1) % 2 = 0 ∧ e.1 < n - 1))).length := by
  intro l
  induction l with
  | nil => intro i; simp [galleryLoop, countPageBreaks, List.enumFrom]
  | cons s rest ih =>
    intro i
    rw [show galleryLoop imgOk n i (s :: rest)
        = galleryEntry imgOk n i s ++ galleryLoop imgOk n (i + 1) rest from rfl,
      countPageBreaks_append, countPageBreaks_galleryEntry, ih (i + 1),
      show List.enumFrom i (s :: rest) = (i, s) :: List.enumFrom (i + 1) rest from rfl,
      List.filter_cons]
    cases h : (successEntry imgOk s && decide ((i + 1) % 2 = 0 ∧ i < n - 1)) <;> simp [h] <;> omega

theorem galleryLoop_count_allOk (imgOk : List Nat → Bool) (n : Nat) :
    ∀ (l : List String) (i : Nat), (∀ s ∈ l, successEntry imgOk s = true) →
      countPageBreaks (galleryLoop imgOk n i l)
        = ((List.range' i l.length).filter (fun j => decide ((j + 1) % 2 = 0 ∧ j < n - 1))).length := by
  intro l
  induction l with
  | nil => intro i _; simp [galleryLoop, countPageBreaks]
  | cons s rest ih =>
    intro i hall
    rw [show galleryLoop imgOk n i (s :: rest)
        = galleryEntry imgOk n i s ++ galleryLoop imgOk n (i + 1) rest from rfl,
      countPageBreaks_append, countPageBreaks_galleryEntry,
      ih (i + 1) (fun x hx => hall x (List.mem_cons_of_mem _ hx)),
      hall s (List.mem_cons_self _ _),
      show (s :: rest).length = rest.length + 1 from rfl,
      show List.range' i (rest.length + 1) = i :: List.range' (i + 1) rest.length from rfl,
      List.filter_cons]
    cases h : decide ((i + 1) % 2 = 0 ∧ i < n - 1) <;> simp [h] <;> omega

theorem count_odd_range : ∀ m : Nat,
    ((List.range m).filter (fun j => decide ((j + 1) % 2 = 0))).length = m / 2 := by
  intro m
  induction m with
  | zero => rfl
  | succ m ih =>
    rw [List.range_succ, List.filter_append, List.length_append, ih]
    by_cases h : (m + 1) % 2 = 0 <;> simp [h] <;> omega

theorem count_breaks_range (n : Nat) :
    ((List.range' 0 n).filter (fun j => decide ((j + 1) % 2 = 0 ∧ j < n - 1))).length
      = (n - 1) / 2 := by
  cases n with
  | zero => rfl
  | succ m =>
    rw [← List.range_eq_range', List.range_succ, List.filter_append, List.length_append]
    have hfront : List.filter (fun j => decide ((j + 1) % 2 = 0 ∧ j < m + 1 - 1)) (List.range m)
        = List.filter (fun j => decide ((j + 1) % 2 = 0)) (List.range m) := by
      apply List.filter_congr
      intro j hj
      have hjm : j < m := List.mem_range.mp hj
      apply decide_eq_decide.mpr
      constructor
      · intro h; exact h.1
      · intro h; exact ⟨h, by omega⟩
    rw [hfront, count_odd_range]
    simp

theorem mem_headerBlocks (lu : Option String) (net : Option HttpResponse)
    (imgOk : List Nat → Bool) (b : Block) (h : b ∈ headerBlocks lu net imgOk) :
    ∃ body, b = Block.headerTable body := by
  rcases lu with _ | u
  · simp [headerBlocks] at h
  · simp only [headerBlocks] at h
    split at h
    · split at h
      · simp at h
      · split at h
        · simp at h
          exact ⟨_, h⟩
        · simp at h
    · simp at h

theorem countPageBreaks_headerBlocks (lu : Option String) (net : Option HttpResponse)
    (imgOk : List Nat → Bool) : countPageBreaks (headerBlocks lu net imgOk) = 0 := by
  rcases lu with _ | u
  · rfl
  · simp only [headerBlocks]
    split
    · split
      · rfl
      · split
        · rfl
        · rfl
    · rfl

theorem mem_galleryLoop_shape (imgOk : List Nat → Bool) (n : Nat) :
    ∀ (l : List String) (i : Nat) (b : Block), b ∈ galleryLoop imgOk n i l →
      (∃ p c, b = Block.imgTable p c) ∨ b = Block.spacer ∨ b = Block.pageBreak := by
  intro l
  induction l with
  | nil => intro i b h; simp [galleryLoop] at h
  | cons s rest ih =>
    intro i b h
    rw [show galleryLoop imgOk n i (s :: rest)
        = galleryEntry imgOk n i s ++ galleryLoop imgOk n (i + 1) rest from rfl,
      List.mem_append] at h
    rcases h with h | h
    · unfold galleryEntry at h
      split at h
      · simp at h
      · split at h
        · simp at h
          rcases h with h | h | ⟨-, h⟩
          · exact Or.inl ⟨i + 1, photoCaption (i + 1) n, h⟩
          · exact Or.inr (Or.inl h)
          · exact Or.inr (Or.inr h)
        · simp at h
    · exact ih (i + 1) b h

theorem countPageBreaks_galleryBlocks (imgOk : List Nat → Bool) (imgs : List String) :
    countPageBreaks (galleryBlocks imgOk (some imgs))
      = countPageBreaks (galleryLoop imgOk imgs.length 0 imgs) := by
  cases imgs with
  | nil => rfl
  | cons s rest => simp [galleryBlocks, countPageBreaks]

theorem requiredPresent_elim (r : LogData) (h : RequiredPresent r) :
    ∃ c i d t ti lo de, r.category = some c ∧ r.id = some i ∧ r.date = some d ∧
      r.time = some t ∧ r.title = some ti ∧ r.location = some lo ∧
      r.description = some de := by
  obtain ⟨h1, h2, h3, h4, h5, h6, h7⟩ := h
  obtain ⟨c, hc⟩ := Option.isSome_iff_exists.mp h1
  obtain ⟨i, hi⟩ := Option.isSome_iff_exists.mp h2
  obtain ⟨d, hd⟩ := Option.isSome_iff_exists.mp h3
  obtain ⟨t, ht⟩ := Option.isSome_iff_exists.mp h4
  obtain ⟨ti, hti⟩ := Option.isSome_iff_exists.mp h5
  obtain ⟨lo, hlo⟩ := Option.isSome_iff_exists.mp h6
  obtain ⟨de, hde⟩ := Option.isSome_iff_exists.mp h7
  exact ⟨c, i, d, t, ti, lo, de, hc, hi, hd, ht, hti, hlo, hde⟩

/-- The successful outcome of `generate_pdf`, spelled out, when every
required field is present. -/
theorem generate_pdf_ok (r : LogData) (net : Option HttpResponse)
    (imgOk : List Nat → Bool) (c i d t ti lo de : String)
    (hc : r.category = some c) (hi : r.id = some i) (hd : r.date = some d)
    (ht : r.time = some t) (hti : r.title = some ti) (hlo : r.location = some lo)
    (hde : r.description = some de) :
    generate_pdf r net imgOk = Except.ok (PdfResult.mk
      (headerBlocks r.logoUrl net imgOk ++
        [Block.spacer, Block.titleTable "MAINTENANCE SERVICE REPORT", Block.spacer,
         Block.refTable ("#" ++ i) (category_color c) (category_text c), Block.spacer,
         Block.infoGrid d t (r.author.getD "Unknown") "SUBMITTED", Block.spacer,
         Block.sectionHeader "ISSUE SUMMARY",
         Block.sectionContent ("<b>" ++ ti ++ "</b>"), Block.spacer,
         Block.sectionHeader "LOCATION / EQUIPMENT IDENTIFICATION",
         Block.sectionContent lo, Block.spacer,
         Block.sectionHeader "DETAILED DESCRIPTION",
         Block.sectionContent (description_to_html de)] ++
        galleryBlocks imgOk r.images ++ [Block.spacer, Block.footerTable i])
      ("SDA-MaintenanceReport-" ++ i ++ ".pdf")) := by
  simp only [generate_pdf, hc, hi, hd, ht, hti, hlo, hde]

theorem imgTable_mem_galleryLoop (imgOk : List Nat → Bool) (n : Nat) :
    ∀ (l : List String) (i j : Nat), j < l.length →
      successEntry imgOk (l.getD j "") = true →
      Block.imgTable (i + j + 1) (photoCaption (i + j + 1) n) ∈ galleryLoop imgOk n i l := by
  intro l
  induction l with
  | nil => intro i j hj _; simp at hj
  | cons s rest ih =>
    intro i j hj hsucc
    rw [show galleryLoop imgOk n i (s :: rest)
        = galleryEntry imgOk n i s ++ galleryLoop imgOk n (i + 1) rest from rfl,
      List.mem_append]
    cases j with
    | zero =>
      left
      rw [List.getD_cons_zero] at hsucc
      unfold successEntry at hsucc
      cases hdec : decode_image s with
      | none => rw [hdec] at hsucc; simp at hsucc
      | some bs =>
        rw [hdec] at hsucc
        simp only [] at hsucc
        simp [galleryEntry, hdec, hsucc]
    | succ j =>
      right
      have hmem := ih (i + 1) j (by simpa using hj)
        (by simpa [List.getD_cons_succ] using hsucc)
      have harith : i + (j + 1) + 1 = i + 1 + j + 1 := by omega
      rw [harith]
      exact hmem

theorem imgTable_mem_galleryLoop_inv (imgOk : List Nat → Bool) (n : Nat) :
    ∀ (l : List String) (i p : Nat) (c : String),
      Block.imgTable p c ∈ galleryLoop imgOk n i l →
      ∃ j, j < l.length ∧ p = i + j + 1 ∧ successEntry imgOk (l.getD j "") = true ∧
        c = photoCaption p n := by
  intro l
  induction l with
  | nil => intro i p c h; simp [galleryLoop] at h
  | cons s rest ih =>
    intro i p c h
    rw [show galleryLoop imgOk n i (s :: rest)
        = galleryEntry imgOk n i s ++ galleryLoop imgOk n (i + 1) rest from rfl,
      List.mem_append] at h
    rcases h with h | h
    · unfold galleryEntry at h
      split at h
      · simp at h
      · rename_i bs hdec
        split at h
        · rename_i hOk
          simp at h
          obtain ⟨hp, hcap⟩ := h
          subst hp
          subst hcap
          refine ⟨0, by simp, by omega, ?_, rfl⟩
          rw [List.getD_cons_zero]
          unfold successEntry
          rw [hdec]
          exact hOk
        · simp at h
    · obtain ⟨j, hj, hp, hsucc, hcap⟩ := ih (i + 1) p c h
      refine ⟨j + 1, by simpa using Nat.succ_lt_succ hj, by omega, ?_, hcap⟩
      rw [List.getD_cons_succ]
      exact hsucc

/-! ## Concrete records used as inputs -/

/-- A complete record whose first image entry fails to base-64 decode
("A" has post-filter length 1, not a multiple of 4) and whose second and
third entries decode. -/
def recC1 : LogData :=
  LogData.mk (some "L1") (some "Leak") (some "it") (some "Rm 4") (some "Pipe burst")
    (some "2024-01-01") (some "10:00") (some "A. Smith")
    (some ["A", "QUJD", "REVG"]) none

/-- The same record with three entries that all decode. -/
def recC1w : LogData :=
  LogData.mk (some "L1") (some "Leak") (some "it") (some "Rm 4") (some "Pipe burst")
    (some "2024-01-01") (some "10:00") (some "A. Smith")
    (some ["QUJD", "REVG", "QUJD"]) none

/-- A record whose first image entry fails to decode and second succeeds. -/
def recC2 : LogData :=
  LogData.mk (some "L1") (some "Leak") (some "it") (some "Rm 4") (some "Pipe burst")
    (some "2024-01-01") (some "10:00") (some "A. Smith")
    (some ["A", "QUJD"]) none

/-- A record whose logo URL contains the placeholder sentinel. -/
def recC4 : LogData :=
  LogData.mk (some "L1") (some "Leak") (some "it") (some "Rm 4") (some "Pipe burst")
    (some "2024-01-01") (some "10:00") (some "A. Smith") none
    (some "https://img.example.com/YOUR_LOGO.png")

/-- A record whose category is the upper-case string "IT". -/
def recC6 : LogData :=
  LogData.mk (some "L2") (some "Leak") (some "IT") (some "Rm 4") (some "Pipe burst")
    (some "2024-01-01") (some "10:00") (some "A. Smith") none none

/-- A record whose category is exactly "it". -/
def recC6w : LogData :=
  LogData.mk (some "L1") (some "Leak") (some "it") (some "Rm 4") (some "Pipe burst")
    (some "2024-01-01") (some "10:00") (some "A. Smith") none none

/-- A record whose description contains a newline character. -/
def recC8 : LogData :=
  LogData.mk (some "L1") (some "Leak") (some "it") (some "Rm 4")
    (some "line1\nline2") (some "2024-01-01") (some "10:00") (some "A. Smith")
    none none

/-- A complete record with no images key. -/
def recC9 : LogData :=
  LogData.mk (some "L1") (some "Leak") (some "it") (some "Rm 4") (some "Pipe burst")
    (some "2024-01-01") (some "10:00") (some "A. Smith") none none

/-- A record with no author field (all required fields present). -/
def recC10a : LogData :=
  LogData.mk (some "L1") (some "Leak") (some "it") (some "Rm 4") (some "Pipe burst")
    (some "2024-01-01") (some "10:00") none none none

/-- A record with no title field. -/
def recC10b : LogData :=
  LogData.mk (some "L1") none (some "it") (some "Rm 4") (some "Pipe burst")
    (some "2024-01-01") (some "10:00") (some "A. Smith") none none

/-! ## Claims -/

/-- C3, counterexample: on an input with two commas the decoder does NOT
base64-decode everything after the first comma.  `split(',')[1]` of
`"meta,QUJD,REVG"` is `"QUJD"` (bytes of "ABC"), while the remainder after
the first comma is `"QUJD,REVG"`, which lenient base-64 decoding (the comma
is discarded) turns into the bytes of "ABCDEF". -/
theorem claim_C3_counterexample :
    decode_image "meta,QUJD,REVG" = some [65, 66, 67] ∧
    decode_image_spec "meta,QUJD,REVG" = some [65, 66, 67, 68, 69, 70] ∧
    decode_image "meta,QUJD,REVG" ≠ decode_image_spec "meta,QUJD,REVG" := by
  exact ⟨by decide, by decide, by decide⟩

/-- C7, counterexample: a non-2xx status whose body is still returned.
`raise_for_status` raises only for 400-599, so a final status of 304 (a
non-2xx status) yields the response body, not an absent result as the
claim states. -/
theorem claim_C7_counterexample :
    download_image_from_url (some (HttpResponse.mk 304 [1, 2])) = some [1, 2] ∧
    ¬(200 ≤ 304 ∧ 304 < 300) := by
  exact ⟨by decide, by decide⟩

/-- C6, counterexample: the category comparison `log_data['category'] == 'it'`
is case-sensitive, so the record with category `"IT"` selects the
building-maintenance color and label, and the document's category cell
shows that fixed label (not the upper-cased raw category). -/
theorem claim_C6_counterexample :
    category_text "IT" = "BUILDING MAINTENANCE REQUEST" ∧
    category_color "IT" = "#cc6600" ∧
    Block.refTable "#L2" "#cc6600" "BUILDING MAINTENANCE REQUEST"
      ∈ elementsOf (generate_pdf recC6 none (fun _ => true)) := by
  exact ⟨by decide, by decide, by decide⟩

/-- C1, counterexample: with images `["A", "QUJD", "REVG"]` (first entry
fails to decode, the other two succeed) there are N = 2 successfully
placed photos, so the claim predicts max(⌈2/2⌉−1, 0) = 0 internal page
breaks; the code inserts 1, and it falls between the two successfully
placed photos, because the break condition `(i+1) % 2 == 0` tests the
original index, not the count of successfully placed photos. -/
theorem claim_C1_counterexample :
    numPlaced (fun _ => true) ["A", "QUJD", "REVG"] = 2 ∧
    countPageBreaks (elementsOf (generate_pdf recC1 none (fun _ => true))) = 1 ∧
    (2 + 1) / 2 - 1 = 0 ∧
    elementsOf (generate_pdf recC1 none (fun _ => true)) =
      [Block.spacer, Block.titleTable "MAINTENANCE SERVICE REPORT", Block.spacer,
       Block.refTable "#L1" "#0066cc" "IT MAINTENANCE REQUEST", Block.spacer,
       Block.infoGrid "2024-01-01" "10:00" "A. Smith" "SUBMITTED", Block.spacer,
       Block.sectionHeader "ISSUE SUMMARY", Block.sectionContent "<b>Leak</b>", Block.spacer,
       Block.sectionHeader "LOCATION / EQUIPMENT IDENTIFICATION",
       Block.sectionContent "Rm 4", Block.spacer,
       Block.sectionHeader "DETAILED DESCRIPTION", Block.sectionContent "Pipe burst",
       Block.spacer, Block.sectionHeader "PHOTOGRAPHIC DOCUMENTATION", Block.spacer,
       Block.imgTable 2 "Photo 2 of 3", Block.spacer, Block.pageBreak,
       Block.imgTable 3 "Photo 3 of 3", Block.spacer,
       Block.spacer, Block.footerTable "L1"] := by
  exact ⟨by decide, by decide, by decide, by decide⟩

theorem galleryBlocks_pos (imgOk : List Nat → Bool) (imgs : List String)
    (h : 0 < imgs.length) :
    galleryBlocks imgOk (some imgs)
      = Block.spacer :: Block.sectionHeader "PHOTOGRAPHIC DOCUMENTATION" :: Block.spacer ::
        galleryLoop imgOk imgs.length 0 imgs := by
  rw [show galleryBlocks imgOk (some imgs)
      = (if 0 < imgs.length then
          Block.spacer :: Block.sectionHeader "PHOTOGRAPHIC DOCUMENTATION" :: Block.spacer ::
            galleryLoop imgOk imgs.length 0 imgs
        else []) from rfl,
    if_pos h]

theorem galleryBlocks_zero (imgOk : List Nat → Bool) (imgs : List String)
    (h : imgs.length = 0) : galleryBlocks imgOk (some imgs) = [] := by
  rw [show galleryBlocks imgOk (some imgs)
      = (if 0 < imgs.length then
          Block.spacer :: Block.sectionHeader "PHOTOGRAPHIC DOCUMENTATION" :: Block.spacer ::
            galleryLoop imgOk imgs.length 0 imgs
        else []) from rfl,
    if_neg (by omega)]

/-- C1 (amended): a page break follows the photo at original 0-based index
`i` exactly when that entry is successfully placed, `(i+1)` is even, and
`i` is not the last original index — the condition tests the original
position, not the count of successfully placed photos.  Consequently, when
every entry of the images sequence is successfully placed, the gallery
contains exactly `(N-1)/2 = max(⌈N/2⌉−1, 0)` internal page breaks; when
some entries fail, the break count follows the original-position rule and
can differ from the successfully-placed formula. -/
theorem claim_C1_amended (r : LogData) (net : Option HttpResponse)
    (imgOk : List Nat → Bool) (imgs : List String)
    (hreq : RequiredPresent r) (him : r.images = some imgs) :
    ∃ doc, generate_pdf r net imgOk = Except.ok doc ∧
      countPageBreaks doc.elements
        = ((List.enumFrom 0 imgs).filter
            (fun e => successEntry imgOk e.2 &&
              decide ((e.1 + 1) % 2 = 0 ∧ e.1 < imgs.length - 1))).length ∧
      ((∀ s ∈ imgs, successEntry imgOk s = true) →
        countPageBreaks doc.elements = (imgs.length - 1) / 2) := by
  obtain ⟨c, i, d, t, ti, lo, de, hc, hi, hd, ht, hti, hlo, hde⟩ := requiredPresent_elim r hreq
  refine ⟨_, generate_pdf_ok r net imgOk c i d t ti lo de hc hi hd ht hti hlo hde, ?_, ?_⟩
  · show countPageBreaks (headerBlocks r.logoUrl net imgOk ++ _ ++ galleryBlocks imgOk r.images
      ++ [Block.spacer, Block.footerTable i]) = _
    rw [him, countPageBreaks_append, countPageBreaks_append, countPageBreaks_append,
      countPageBreaks_headerBlocks, countPageBreaks_galleryBlocks,
      galleryLoop_count imgOk imgs.length imgs 0]
    simp [countPageBreaks]
  · intro hall
    show countPageBreaks (headerBlocks r.logoUrl net imgOk ++ _ ++ galleryBlocks imgOk r.images
      ++ [Block.spacer, Block.footerTable i]) = _
    rw [him, countPageBreaks_append, countPageBreaks_append, countPageBreaks_append,
      countPageBreaks_headerBlocks, countPageBreaks_galleryBlocks,
      galleryLoop_count_allOk imgOk imgs.length imgs 0 hall, count_breaks_range]
    simp [countPageBreaks]

/-- C1, witness for the amended theorem: a record whose three image entries
all decode; the gallery contains (3-1)/2 = 1 internal page break. -/
theorem claim_C1_witness :
    ∃ doc, generate_pdf recC1w none (fun _ => true) = Except.ok doc ∧
      countPageBreaks doc.elements = 1 := by
  obtain ⟨doc, hok, -, hall⟩ := claim_C1_amended recC1w none (fun _ => true)
    ["QUJD", "REVG", "QUJD"] ⟨rfl, rfl, rfl, rfl, rfl, rfl, rfl⟩ rfl
  exact ⟨doc, hok, (hall (by decide)).trans rfl⟩

/-- C2: photo captions carry the 1-based position in the original images
sequence and the original total count, unaffected by entries that fail to
decode.  Completeness: every successfully placed entry at original index
`j` contributes an image table captioned `Photo (j+1) of N` with `N` the
original length; soundness: every image table in the document arises this
way (failed entries are omitted without renumbering the survivors). -/
theorem claim_C2 (r : LogData) (net : Option HttpResponse)
    (imgOk : List Nat → Bool) (imgs : List String)
    (hreq : RequiredPresent r) (him : r.images = some imgs) :
    ∃ doc, generate_pdf r net imgOk = Except.ok doc ∧
      (∀ j, j < imgs.length → successEntry imgOk (imgs.getD j "") = true →
        Block.imgTable (j + 1)
          ("Photo " ++ toString (j + 1) ++ " of " ++ toString imgs.length) ∈ doc.elements) ∧
      (∀ p cap, Block.imgTable p cap ∈ doc.elements →
        ∃ j, j < imgs.length ∧ p = j + 1 ∧ successEntry imgOk (imgs.getD j "") = true ∧
          cap = "Photo " ++ toString p ++ " of " ++ toString imgs.length) := by
  obtain ⟨c, i, d, t, ti, lo, de, hc, hi, hd, ht, hti, hlo, hde⟩ := requiredPresent_elim r hreq
  refine ⟨_, generate_pdf_ok r net imgOk c i d t ti lo de hc hi hd ht hti hlo hde, ?_, ?_⟩
  · intro j hj hsucc
    have hpos : 0 < imgs.length := Nat.lt_of_le_of_lt (Nat.zero_le j) hj
    have hmem := imgTable_mem_galleryLoop imgOk imgs.length imgs 0 j hj hsucc
    show Block.imgTable (j + 1) (photoCaption (j + 1) imgs.length)
        ∈ headerBlocks r.logoUrl net imgOk ++ _ ++ galleryBlocks imgOk r.images
          ++ [Block.spacer, Block.footerTable i]
    rw [him, galleryBlocks_pos imgOk imgs hpos]
    simp only [List.mem_append, List.mem_cons]
    refine Or.inl (Or.inr (Or.inr (Or.inr (Or.inr ?_))))
    simpa using hmem
  · intro p cap hmem
    rw [show (PdfResult.mk _ _).elements = _ from rfl, him] at hmem
    simp only [List.mem_append] at hmem
    rcases hmem with ((hh | hmid) | hgal) | htail
    · obtain ⟨body, hbody⟩ := mem_headerBlocks r.logoUrl net imgOk _ hh
      exact absurd hbody (by simp)
    · exact absurd hmid (by simp)
    · rcases Nat.eq_zero_or_pos imgs.length with hz | hpos
      · rw [galleryBlocks_zero imgOk imgs hz] at hgal
        exact absurd hgal (by simp)
      · rw [galleryBlocks_pos imgOk imgs hpos] at hgal
        simp only [List.mem_cons] at hgal
        rcases hgal with h | h | h | h
        · exact absurd h (by simp)
        · exact absurd h (by simp)
        · exact absurd h (by simp)
        · obtain ⟨j, hj, hp, hsucc, hcap⟩ :=
            imgTable_mem_galleryLoop_inv imgOk imgs.length imgs 0 p cap h
          exact ⟨j, hj, by omega, hsucc, hcap⟩
    · exact absurd htail (by simp)

/-- C2, witness: in a record whose first entry fails to decode and whose
second succeeds, the second photo is captioned `Photo 2 of 2`. -/
theorem claim_C2_witness :
    ∃ doc, generate_pdf recC2 none (fun _ => true) = Except.ok doc ∧
      Block.imgTable 2 "Photo 2 of 2" ∈ doc.elements := by
  obtain ⟨doc, hok, h1, -⟩ := claim_C2 recC2 none (fun _ => true) ["A", "QUJD"]
    ⟨rfl, rfl, rfl, rfl, rfl, rfl, rfl⟩ rfl
  exact ⟨doc, hok, h1 1 (by decide) (by decide)⟩

theorem headerTable_not_mem_galleryBlocks (imgOk : List Nat → Bool)
    (images : Option (List String)) (body : List Nat) :
    Block.headerTable body ∉ galleryBlocks imgOk images := by
  intro h
  rcases images with _ | imgs
  · simp [galleryBlocks] at h
  · rcases Nat.eq_zero_or_pos imgs.length with hz | hpos
    · rw [galleryBlocks_zero imgOk imgs hz] at h
      exact absurd h (by simp)
    · rw [galleryBlocks_pos imgOk imgs hpos] at h
      simp only [List.mem_cons] at h
      rcases h with h | h | h | h
      · exact absurd h (by simp)
      · exact absurd h (by simp)
      · exact absurd h (by simp)
      · rcases mem_galleryLoop_shape imgOk imgs.length imgs 0 _ h with ⟨p, c, hpc⟩ | h | h
        · exact absurd hpc (by simp)
        · exact absurd h (by simp)
        · exact absurd h (by simp)

/-- C4: when `logoUrl` is absent, empty, contains the placeholder sentinel
`"YOUR_LOGO"`, or the download fails (network exception or 4xx/5xx
status), composition of an otherwise-complete record still succeeds and
the resulting document contains no header logo block. -/
theorem claim_C4 (r : LogData) (net : Option HttpResponse)
    (imgOk : List Nat → Bool) (hreq : RequiredPresent r)
    (hlogo : r.logoUrl = none ∨ r.logoUrl = some "" ∨
      (∃ u, r.logoUrl = some u ∧ strContainsSub u "YOUR_LOGO" = true) ∨
      download_image_from_url net = none) :
    ∃ doc, generate_pdf r net imgOk = Except.ok doc ∧
      ∀ body, Block.headerTable body ∉ doc.elements := by
  obtain ⟨c, i, d, t, ti, lo, de, hc, hi, hd, ht, hti, hlo, hde⟩ := requiredPresent_elim r hreq
  refine ⟨_, generate_pdf_ok r net imgOk c i d t ti lo de hc hi hd ht hti hlo hde, ?_⟩
  intro body hmem
  have hemp : headerBlocks r.logoUrl net imgOk = [] := by
    rcases hlogo with h | h | ⟨u, hu, hsub⟩ | h
    · rw [h]; rfl
    · rw [h]
      simp [headerBlocks]
    · rw [hu]
      simp [headerBlocks, hsub]
    · rcases hl : r.logoUrl with _ | u
      · rfl
      · simp only [headerBlocks]
        rw [h]
        split
        · rfl
        · rfl
  rw [show (PdfResult.mk _ _).elements = _ from rfl, hemp] at hmem
  simp only [List.nil_append, List.mem_append] at hmem
  rcases hmem with (hmid | hgal) | htail
  · exact absurd hmid (by simp)
  · exact headerTable_not_mem_galleryBlocks imgOk r.images body hgal
  · exact absurd htail (by simp)

/-- C4, witness: a record whose logo URL contains the `YOUR_LOGO`
placeholder renders successfully with no header logo block. -/
theorem claim_C4_witness :
    ∃ doc, generate_pdf recC4 none (fun _ => true) = Except.ok doc ∧
      ∀ body, Block.headerTable body ∉ doc.elements :=
  claim_C4 recC4 none (fun _ => true) ⟨rfl, rfl, rfl, rfl, rfl, rfl, rfl⟩
    (Or.inr (Or.inr (Or.inl ⟨"https://img.example.com/YOUR_LOGO.png", rfl, by decide⟩)))

/-- C5: the outcome of `generate_pdf` is always either a complete document
or a single error result.  The only exceptions the composition can raise
outside the silently-recovered per-photo and per-logo handlers are the
required-field `KeyError`s, and the top-level handler turns the first of
them (in source evaluation order) into an error response carrying exactly
`str(KeyError(...))` — the quoted key — with no document attached; when no
required field is missing the result is a complete document. -/
theorem claim_C5 (r : LogData) (net : Option HttpResponse) (imgOk : List Nat → Bool) :
    match firstMissing r with
    | some k => generate_pdf r net imgOk = Except.error (keyErr k)
    | none => ∃ doc, generate_pdf r net imgOk = Except.ok doc := by
  obtain ⟨i0, t0, c0, l0, d0, dt, tm, au, im, lg⟩ := r
  cases c0 <;> cases i0 <;> cases dt <;> cases tm <;> cases t0 <;> cases l0 <;> cases d0 <;>
    simp [generate_pdf, firstMissing]

/-- C6 (amended): the category tag is compared case-sensitively with the
exact string `"it"`: that value alone selects the IT color `#0066cc` and
label `IT MAINTENANCE REQUEST`, and every other value — including `"IT"`
and `"It"` — selects `#cc6600` and `BUILDING MAINTENANCE REQUEST`; the
document's category cell displays this fixed upper-case label (the raw
category string is upper-cased only in the server console log, not in the
document). -/
theorem claim_C6_amended (r : LogData) (net : Option HttpResponse)
    (imgOk : List Nat → Bool) (hreq : RequiredPresent r) :
    ∃ doc c i, r.category = some c ∧ r.id = some i ∧
      generate_pdf r net imgOk = Except.ok doc ∧
      Block.refTable ("#" ++ i) (category_color c) (category_text c) ∈ doc.elements ∧
      (c = "it" → category_color c = "#0066cc" ∧ category_text c = "IT MAINTENANCE REQUEST") ∧
      (c ≠ "it" → category_color c = "#cc6600" ∧
        category_text c = "BUILDING MAINTENANCE REQUEST") := by
  obtain ⟨c, i, d, t, ti, lo, de, hc, hi, hd, ht, hti, hlo, hde⟩ := requiredPresent_elim r hreq
  refine ⟨_, c, i, hc, hi,
    generate_pdf_ok r net imgOk c i d t ti lo de hc hi hd ht hti hlo hde, ?_, ?_, ?_⟩
  · simp [List.mem_append]
  · intro h
    simp [category_color, category_text, h]
  · intro h
    simp [category_color, category_text, h]

/-- C6, witness: a record whose category is exactly `"it"` gets the IT
color and label in its document-reference cell. -/
theorem claim_C6_witness :
    ∃ doc, generate_pdf recC6w none (fun _ => true) = Except.ok doc ∧
      Block.refTable "#L1" "#0066cc" "IT MAINTENANCE REQUEST" ∈ doc.elements := by
  obtain ⟨doc, c, i, hc, hi, hok, hmem, hit, -⟩ :=
    claim_C6_amended recC6w none (fun _ => true) ⟨rfl, rfl, rfl, rfl, rfl, rfl, rfl⟩
  have hceq : c = "it" := Option.some.inj hc.symm
  have hieq : i = "L1" := Option.some.inj hi.symm
  subst hceq
  subst hieq
  exact ⟨doc, hok, hmem⟩

/-- C7 (amended): the remote image fetcher never raises: a raised network
exception (connection error, timeout, malformed URL) yields an absent
result, and an obtained response yields the full body exactly when
`raise_for_status` does not raise, i.e. when the status is outside
400-599 (so non-2xx statuses below 400 still return the body); the request
uses a 10-second timeout and browser-like User-Agent and image-accepting
Accept headers. -/
theorem claim_C7_amended (net : Option HttpResponse) :
    (net = none → download_image_from_url net = none) ∧
    (∀ resp, net = some resp →
      download_image_from_url net
        = (if 400 ≤ resp.status ∧ resp.status < 600 then none else some resp.body)) ∧
    request_timeout_seconds = 10 ∧
    (∃ ua, ("User-Agent", ua) ∈ request_headers ∧ strContainsSub ua "Mozilla/5.0" = true) ∧
    (∃ acc, ("Accept", acc) ∈ request_headers ∧ strContainsSub acc "image/" = true) := by
  refine ⟨?_, ?_, rfl, ?_, ?_⟩
  · intro h
    rw [h]
    rfl
  · intro resp h
    rw [h]
    rfl
  · exact ⟨"Mozilla/5.0 (Windows NT 10.0; Win64; x64) AppleWebKit/537.36 (KHTML, like Gecko) Chrome/91.0.4472.124 Safari/537.36",
      by simp [request_headers], by decide⟩
  · exact ⟨"image/webp,image/apng,image/*,*/*;q=0.8", by simp [request_headers], by decide⟩

/-- C7, witness: a 200 response returns its body in full; a 404 response
returns an absent result. -/
theorem claim_C7_witness :
    download_image_from_url (some (HttpResponse.mk 200 [5, 6])) = some [5, 6] ∧
    download_image_from_url (some (HttpResponse.mk 404 [5, 6])) = none := by
  have h1 := (claim_C7_amended (some (HttpResponse.mk 200 [5, 6]))).2.1
    (HttpResponse.mk 200 [5, 6]) rfl
  have h2 := (claim_C7_amended (some (HttpResponse.mk 404 [5, 6]))).2.1
    (HttpResponse.mk 404 [5, 6]) rfl
  exact ⟨h1.trans (by decide), h2.trans (by decide)⟩

theorem newline_not_mem_replaceNewlines : ∀ l : List Char,
    '\n' ∉ replaceNewlines l := by
  intro l
  induction l with
  | nil => simp [replaceNewlines]
  | cons c rest ih =>
    intro hmem
    by_cases hc : c = '\n'
    · rw [show replaceNewlines (c :: rest)
          = '<' :: 'b' :: 'r' :: '/' :: '>' :: replaceNewlines rest from by
        simp [replaceNewlines, hc]] at hmem
      simp only [List.mem_cons] at hmem
      rcases hmem with h | h | h | h | h | h
      · exact absurd h (by decide)
      · exact absurd h (by decide)
      · exact absurd h (by decide)
      · exact absurd h (by decide)
      · exact absurd h (by decide)
      · exact ih h
    · rw [show replaceNewlines (c :: rest) = c :: replaceNewlines rest from by
        simp [replaceNewlines, hc]] at hmem
      simp only [List.mem_cons] at hmem
      rcases hmem with h | h
      · exact hc h.symm
      · exact ih h

/-- C8: the detailed-description content box carries the description with
every newline replaced by an explicit `<br/>` break tag, and no newline
character survives in the rendered text. -/
theorem claim_C8 (r : LogData) (net : Option HttpResponse)
    (imgOk : List Nat → Bool) (hreq : RequiredPresent r) :
    ∃ doc de, r.description = some de ∧ generate_pdf r net imgOk = Except.ok doc ∧
      Block.sectionContent (description_to_html de) ∈ doc.elements ∧
      '\n' ∉ (description_to_html de).data := by
  obtain ⟨c, i, d, t, ti, lo, de, hc, hi, hd, ht, hti, hlo, hde⟩ := requiredPresent_elim r hreq
  refine ⟨_, de, hde,
    generate_pdf_ok r net imgOk c i d t ti lo de hc hi hd ht hti hlo hde, ?_, ?_⟩
  · simp [List.mem_append]
  · exact newline_not_mem_replaceNewlines de.data

/-- C8, witness: the description `"line1\nline2"` renders as
`"line1<br/>line2"` — an explicit break tag between the two lines, no
literal backslash-n, no surviving newline. -/
theorem claim_C8_witness :
    (∃ doc de, recC8.description = some de ∧
      generate_pdf recC8 none (fun _ => true) = Except.ok doc ∧
      Block.sectionContent (description_to_html de) ∈ doc.elements ∧
      '\n' ∉ (description_to_html de).data) ∧
    description_to_html "line1\nline2" = "line1<br/>line2" :=
  ⟨claim_C8 recC8 none (fun _ => true) ⟨rfl, rfl, rfl, rfl, rfl, rfl, rfl⟩, by decide⟩

/-- C9: a record whose images key is absent or whose images list is empty
renders with no gallery block: no photographic-documentation section
header, no image/caption tables, and no page breaks anywhere in the
document. -/
theorem claim_C9 (r : LogData) (net : Option HttpResponse)
    (imgOk : List Nat → Bool) (hreq : RequiredPresent r)
    (him : r.images = none ∨ r.images = some []) :
    ∃ doc, generate_pdf r net imgOk = Except.ok doc ∧
      countPageBreaks doc.elements = 0 ∧
      (∀ p cap, Block.imgTable p cap ∉ doc.elements) ∧
      Block.sectionHeader "PHOTOGRAPHIC DOCUMENTATION" ∉ doc.elements := by
  obtain ⟨c, i, d, t, ti, lo, de, hc, hi, hd, ht, hti, hlo, hde⟩ := requiredPresent_elim r hreq
  have hgal : galleryBlocks imgOk r.images = [] := by
    rcases him with h | h
    · rw [h]
      rfl
    · rw [h]
      exact galleryBlocks_zero imgOk [] rfl
  refine ⟨_, generate_pdf_ok r net imgOk c i d t ti lo de hc hi hd ht hti hlo hde,
    ?_, ?_, ?_⟩
  · show countPageBreaks (headerBlocks r.logoUrl net imgOk ++ _ ++ galleryBlocks imgOk r.images
      ++ [Block.spacer, Block.footerTable i]) = 0
    rw [hgal, countPageBreaks_append, countPageBreaks_append, countPageBreaks_append,
      countPageBreaks_headerBlocks]
    simp [countPageBreaks]
  · intro p cap hmem
    rw [show (PdfResult.mk _ _).elements = _ from rfl, hgal] at hmem
    simp only [List.mem_append] at hmem
    rcases hmem with ((hh | hmid) | hg) | htail
    · obtain ⟨body, hbody⟩ := mem_headerBlocks r.logoUrl net imgOk _ hh
      exact absurd hbody (by simp)
    · exact absurd hmid (by simp)
    · exact absurd hg (by simp)
    · exact absurd htail (by simp)
  · intro hmem
    rw [show (PdfResult.mk _ _).elements = _ from rfl, hgal] at hmem
    simp only [List.mem_append] at hmem
    rcases hmem with ((hh | hmid) | hg) | htail
    · obtain ⟨body, hbody⟩ := mem_headerBlocks r.logoUrl net imgOk _ hh
      exact absurd hbody (by simp)
    · simp only [List.mem_cons, List.not_mem_nil, or_false] at hmid
      rcases hmid with h | h | h | h | h | h | h | h | h | h | h | h | h | h | h
      · exact absurd h (by simp)
      · exact absurd h (by decide)
      · exact absurd h (by simp)
      · exact absurd h (by simp)
      · exact absurd h (by simp)
      · exact absurd h (by simp)
      · exact absurd h (by simp)
      · exact absurd h (by decide)
      · exact absurd h (by simp)
      · exact absurd h (by simp)
      · exact absurd h (by decide)
      · exact absurd h (by simp)
      · exact absurd h (by simp)
      · exact absurd h (by decide)
      · exact absurd h (by simp)
    · exact absurd hg (by simp)
    · exact absurd htail (by simp)

/-- C9, witness: the complete record with no images key renders with no
gallery content and zero page breaks. -/
theorem claim_C9_witness :
    ∃ doc, generate_pdf recC9 none (fun _ => true) = Except.ok doc ∧
      countPageBreaks doc.elements = 0 ∧
      (∀ p cap, Block.imgTable p cap ∉ doc.elements) ∧
      Block.sectionHeader "PHOTOGRAPHIC DOCUMENTATION" ∉ doc.elements :=
  claim_C9 recC9 none (fun _ => true) ⟨rfl, rfl, rfl, rfl, rfl, rfl, rfl⟩ (Or.inl rfl)

/-- C10: a missing author does not fail composition — the info grid shows
the placeholder `Unknown` — while a missing `id`, `title`, `category`,
`location`, `description`, `date` or `time` makes the whole render fail
with an error result and no document, because those fields are read with
raising dictionary access. -/
theorem claim_C10 (r : LogData) (net : Option HttpResponse) (imgOk : List Nat → Bool) :
    (RequiredPresent r → r.author = none →
      ∃ doc d t, generate_pdf r net imgOk = Except.ok doc ∧
        Block.infoGrid d t "Unknown" "SUBMITTED" ∈ doc.elements) ∧
    ((r.id = none ∨ r.title = none ∨ r.category = none ∨ r.location = none ∨
      r.description = none ∨ r.date = none ∨ r.time = none) →
      ∃ m, generate_pdf r net imgOk = Except.error m) := by
  constructor
  · intro hreq hau
    obtain ⟨c, i, d, t, ti, lo, de, hc, hi, hd, ht, hti, hlo, hde⟩ := requiredPresent_elim r hreq
    refine ⟨_, d, t,
      generate_pdf_ok r net imgOk c i d t ti lo de hc hi hd ht hti hlo hde, ?_⟩
    simp [hau, List.mem_append]
  · intro hmiss
    obtain ⟨i0, t0, c0, l0, d0, dt, tm, au, im, lg⟩ := r
    cases c0 <;> cases i0 <;> cases dt <;> cases tm <;> cases t0 <;> cases l0 <;> cases d0 <;>
      simp_all [generate_pdf]

/-- C10, witness: a record without an author renders with the `Unknown`
placeholder in the info grid; a record without a title fails with an error
result. -/
theorem claim_C10_witness :
    (∃ doc d t, generate_pdf recC10a none (fun _ => true) = Except.ok doc ∧
      Block.infoGrid d t "Unknown" "SUBMITTED" ∈ doc.elements) ∧
    (∃ m, generate_pdf recC10b none (fun _ => true) = Except.error m) :=
  ⟨(claim_C10 recC10a none (fun _ => true)).1 ⟨rfl, rfl, rfl, rfl, rfl, rfl, rfl⟩ rfl,
   (claim_C10 recC10b none (fun _ => true)).2 (Or.inr (Or.inl rfl))⟩

theorem splitOnComma_no_comma : ∀ l : List Char, l.count ',' = 0 → splitOnComma l = [l] := by
  intro l
  induction l with
  | nil => intro _; rfl
  | cons c rest ih =>
    intro h
    by_cases hc : c = ','
    · subst hc
      simp [List.count_cons] at h
    · have h0 : rest.count ',' = 0 := by
        simp [List.count_cons, hc] at h
        omega
      rw [show splitOnComma (c :: rest)
          = (match splitOnComma rest with
             | [] => [[c]]
             | g :: gs => (c :: g) :: gs) from by simp [splitOnComma, hc],
        ih h0]

theorem splitOnComma_ne_nil : ∀ l : List Char, splitOnComma l ≠ [] := by
  intro l
  cases l with
  | nil => simp [splitOnComma]
  | cons c rest =>
    by_cases hc : c = ','
    · simp [splitOnComma, hc]
    · rw [show splitOnComma (c :: rest)
          = (match splitOnComma rest with
             | [] => [[c]]
             | g :: gs => (c :: g) :: gs) from by simp [splitOnComma, hc]]
      cases splitOnComma rest <;> simp

theorem second_field_eq : ∀ l : List Char, l.count ',' ≤ 1 → l.contains ',' = true →
    (splitOnComma l).getD 1 [] = (l.dropWhile (fun c => c != ',')).drop 1 := by
  intro l
  induction l with
  | nil => intro _ h; simp at h
  | cons c rest ih =>
    intro hcount hcont
    by_cases hc : c = ','
    · subst hc
      have h0 : rest.count ',' = 0 := by
        simp [List.count_cons] at hcount
        omega
      rw [show splitOnComma (',' :: rest) = [] :: splitOnComma rest from by simp [splitOnComma],
        splitOnComma_no_comma rest h0]
      simp [List.dropWhile, List.getD]
    · have hcont2 : rest.contains ',' = true := by
        simp [List.contains_cons] at hcont
        rcases hcont with h | h
        · exact absurd h.symm hc
        · simpa using h
      have hcount2 : rest.count ',' ≤ 1 := by
        simp [List.count_cons, hc] at hcount
        omega
      obtain ⟨g, gs, hg⟩ : ∃ g gs, splitOnComma rest = g :: gs := by
        cases hsp : splitOnComma rest with
        | nil => exact absurd hsp (splitOnComma_ne_nil rest)
        | cons g gs => exact ⟨g, gs, rfl⟩
      rw [show splitOnComma (c :: rest)
          = (match splitOnComma rest with
             | [] => [[c]]
             | g :: gs => (c :: g) :: gs) from by simp [splitOnComma, hc],
        hg]
      have hlhs : ((c :: g) :: gs).getD 1 [] = (g :: gs).getD 1 [] := by
        cases gs <;> rfl
      rw [hlhs, ← hg, ih hcount2 hcont2]
      have hpred : (fun x => x != ',') c = true := by
        simp [hc]
      rw [show (c :: rest).dropWhile (fun x => x != ',')
          = rest.dropWhile (fun x => x != ',') from by
        rw [List.dropWhile_cons, if_pos hpred]]

/-- C3 (amended): the decoder takes the text strictly between the first and
the second comma of the entry — Python `split(',')[1]` — rather than
everything after the first comma; on entries containing at most one comma
(in particular every well-formed data-URI and every bare base-64 payload,
whose alphabet has no comma) the two notions coincide. -/
theorem claim_C3_amended (s : String) (h : s.data.count ',' ≤ 1) :
    decode_image s = decode_image_spec s := by
  unfold decode_image decode_image_spec
  by_cases hc : s.data.contains ',' = true
  · rw [if_pos hc, if_pos hc, second_field_eq s.data h hc]
  · rw [if_neg hc, if_neg hc]

/-- C3, witness: on a well-formed data-URI (one comma) the source decoder
and the spec-worded decoder agree. -/
theorem claim_C3_witness :
    ("data:image/png;base64,QUJD".data.count ',' ≤ 1) ∧
    decode_image "data:image/png;base64,QUJD"
      = decode_image_spec "data:image/png;base64,QUJD" :=
  ⟨by decide, claim_C3_amended "data:image/png;base64,QUJD" (by decide)⟩
